import Mathlib

/-!
Formal model of the VibeSensor firmware core (wire codec, frame queue,
sampling scheduler, transport drain, retry policy), embedded shallowly
from the C++ sources.  Machine integers are modelled as `Nat` with
explicit reductions modulo `2 ^ w` wherever the C code can wrap; byte
buffers are `List Nat` with every element below 256 by construction.
-/

/-! ## Byte-level primitives (vibesensor_proto.cpp) -/

/-- C: `write_u16_le` — two little-endian bytes of a 16-bit value. -/
def write_u16_le (v : Nat) : List Nat :=
  [v % 256, v / 256 % 256]

/-- C: `write_u32_le` — four little-endian bytes of a 32-bit value. -/
def write_u32_le (v : Nat) : List Nat :=
  [v % 256, v / 256 % 256, v / 2 ^ 16 % 256, v / 2 ^ 24 % 256]

/-- C: `write_u64_le` — eight little-endian bytes of a 64-bit value. -/
def write_u64_le (v : Nat) : List Nat :=
  [v % 256, v / 2 ^ 8 % 256, v / 2 ^ 16 % 256, v / 2 ^ 24 % 256,
   v / 2 ^ 32 % 256, v / 2 ^ 40 % 256, v / 2 ^ 48 % 256, v / 2 ^ 56 % 256]

/-- C: `read_u16_le` — reads `src[0] | src[1] << 8`. -/
def read_u16_le (src : List Nat) : Nat :=
  src.getD 0 0 + 256 * src.getD 1 0

/-- C: `read_u32_le`. -/
def read_u32_le (src : List Nat) : Nat :=
  src.getD 0 0 + 256 * src.getD 1 0 + 2 ^ 16 * src.getD 2 0 + 2 ^ 24 * src.getD 3 0

/-- Modelled from the spec: `read_u64_le` for the collector-side decoder
(all multi-byte integers are little-endian, §4.1). -/
def read_u64_le (src : List Nat) : Nat :=
  src.getD 0 0 + 2 ^ 8 * src.getD 1 0 + 2 ^ 16 * src.getD 2 0 + 2 ^ 24 * src.getD 3 0 +
  2 ^ 32 * src.getD 4 0 + 2 ^ 40 * src.getD 5 0 + 2 ^ 48 * src.getD 6 0 +
  2 ^ 56 * src.getD 7 0

/-- Two little-endian bytes of an `int16_t` sample (two's complement),
as `memcpy` of the interleaved sample array lays them out. -/
def write_i16_le (x : Int) : List Nat :=
  write_u16_le (x % 65536).toNat

/-- Reads back an `int16_t` from two little-endian bytes. -/
def read_i16_le (src : List Nat) : Int :=
  let u := read_u16_le src
  if u < 32768 then (u : Int) else (u : Int) - 65536

theorem read_write_u16 (v : Nat) (r : List Nat) :
    read_u16_le (write_u16_le v ++ r) = v % 2 ^ 16 := by
  simp [read_u16_le, write_u16_le]
  omega

theorem read_write_u32 (v : Nat) (r : List Nat) :
    read_u32_le (write_u32_le v ++ r) = v % 2 ^ 32 := by
  simp [read_u32_le, write_u32_le]
  omega

theorem read_write_u64 (v : Nat) (r : List Nat) :
    read_u64_le (write_u64_le v ++ r) = v % 2 ^ 64 := by
  simp [read_u64_le, write_u64_le]
  omega

theorem take_app {α : Type} (l₁ l₂ : List α) (n : Nat) (h : l₁.length = n) :
    (l₁ ++ l₂).take n = l₁ := by
  subst h; exact List.take_left l₁ l₂

theorem drop_app {α : Type} (l₁ l₂ : List α) (n : Nat) (h : l₁.length = n) :
    (l₁ ++ l₂).drop n = l₂ := by
  subst h; exact List.drop_left l₁ l₂

theorem read_write_i16 (x : Int) (r : List Nat)
    (hlo : -32768 ≤ x) (hhi : x < 32768) :
    read_i16_le (write_i16_le x ++ r) = x := by
  have h16 : ((x % 65536).toNat : Nat) < 2 ^ 16 := by
    have h1 : (0 : Int) ≤ x % 65536 := Int.emod_nonneg x (by norm_num)
    have h2 : x % 65536 < 65536 := Int.emod_lt_of_pos x (by norm_num)
    omega
  unfold read_i16_le write_i16_le
  rw [read_write_u16]
  rw [Nat.mod_eq_of_lt h16]
  have h1 : (0 : Int) ≤ x % 65536 := Int.emod_nonneg x (by norm_num)
  have h2 : x % 65536 < 65536 := Int.emod_lt_of_pos x (by norm_num)
  rcases le_or_lt 0 x with hx | hx
  · have : x % 65536 = x := Int.emod_eq_of_lt hx (by omega)
    simp only [this]
    split <;> omega
  · have : x % 65536 = x + 65536 := by omega
    simp only [this]
    split <;> omega

/-- Sequence of interleaved int16 samples laid out two bytes each, as the
`memcpy` of the sample array in `pack_data` lays them out. -/
def encode_i16s : List Int → List Nat
  | [] => []
  | x :: xs => write_i16_le x ++ encode_i16s xs

/-- Reads back `n` int16 values, two bytes each. -/
def read_i16s : Nat → List Nat → List Int
  | 0, _ => []
  | n + 1, l => read_i16_le l :: read_i16s n (l.drop 2)

theorem read_encode_i16s (xs : List Int) (r : List Nat)
    (h : ∀ x ∈ xs, -32768 ≤ x ∧ x < 32768) :
    read_i16s xs.length (encode_i16s xs ++ r) = xs := by
  induction xs with
  | nil => rfl
  | cons x xs ih =>
    have hx := h x (List.mem_cons_self x xs)
    have hlen : (write_i16_le x).length = 2 := by
      simp [write_i16_le, write_u16_le]
    simp only [encode_i16s, List.length_cons, read_i16s, List.append_assoc]
    rw [read_write_i16 x _ hx.1 hx.2, drop_app _ _ _ hlen,
      ih fun y hy => h y (List.mem_cons_of_mem x hy)]

theorem encode_i16s_length (xs : List Int) :
    (encode_i16s xs).length = 2 * xs.length := by
  induction xs with
  | nil => rfl
  | cons x xs ih => simp [encode_i16s, write_i16_le, write_u16_le, ih]; omega

/-! ## Wire protocol constants (vibesensor_proto.h, firmware tree) -/

def kProtoVersion : Nat := 1
def kClientIdBytes : Nat := 6
def kHelloFixedBytes : Nat := 1 + 1 + kClientIdBytes + 2 + 2 + 2 + 1 + 1 + 4
def kDataHeaderBytes : Nat := 1 + 1 + kClientIdBytes + 4 + 8 + 2
def kAckBytes : Nat := 1 + 1 + kClientIdBytes + 4 + 1
def kDataAckBytes : Nat := 1 + 1 + kClientIdBytes + 4
def kCmdHeaderBytes : Nat := 1 + 1 + kClientIdBytes + 1 + 4

def kMsgHello : Nat := 1
def kMsgData : Nat := 2
def kMsgCmd : Nat := 3
def kMsgAck : Nat := 4
def kMsgDataAck : Nat := 5

def kCmdIdentify : Nat := 1
def kCmdSyncClock : Nat := 2

/-! ## Message values

Each message kind is modelled as a structure over `Nat`/`Int`/byte lists,
with a `Valid` predicate recording the ranges the C parameter types
enforce (`uint16_t` arguments are below `2 ^ 16`, and so on).  The two
name fields of Hello are the bytes of NUL-terminated C strings, hence
nonzero bytes. -/

structure HelloMsg where
  client_id : List Nat
  control_port : Nat
  sample_rate_hz : Nat
  frame_samples : Nat
  name : List Nat
  firmware_version : List Nat
  overflow_drop_count : Nat
deriving DecidableEq, Repr

def HelloMsg.Valid (m : HelloMsg) : Prop :=
  m.client_id.length = 6 ∧ (∀ b ∈ m.client_id, b < 256) ∧
  m.control_port < 2 ^ 16 ∧ m.sample_rate_hz < 2 ^ 16 ∧ m.frame_samples < 2 ^ 16 ∧
  (∀ b ∈ m.name, 0 < b ∧ b < 256) ∧ (∀ b ∈ m.firmware_version, 0 < b ∧ b < 256) ∧
  m.overflow_drop_count < 2 ^ 32

instance (m : HelloMsg) : Decidable m.Valid := by
  unfold HelloMsg.Valid; infer_instance

structure DataMsg where
  client_id : List Nat
  seq : Nat
  t0_us : Nat
  sample_count : Nat
  xyz : List Int
deriving DecidableEq, Repr

def DataMsg.Valid (m : DataMsg) : Prop :=
  m.client_id.length = 6 ∧ (∀ b ∈ m.client_id, b < 256) ∧
  m.seq < 2 ^ 32 ∧ m.t0_us < 2 ^ 64 ∧ m.sample_count < 2 ^ 16 ∧
  m.xyz.length = 3 * m.sample_count ∧ (∀ x ∈ m.xyz, -32768 ≤ x ∧ x < 32768)

instance (m : DataMsg) : Decidable m.Valid := by
  unfold DataMsg.Valid; infer_instance

structure AckMsg where
  client_id : List Nat
  cmd_seq : Nat
  status : Nat
deriving DecidableEq, Repr

def AckMsg.Valid (m : AckMsg) : Prop :=
  m.client_id.length = 6 ∧ (∀ b ∈ m.client_id, b < 256) ∧
  m.cmd_seq < 2 ^ 32 ∧ m.status < 256

instance (m : AckMsg) : Decidable m.Valid := by
  unfold AckMsg.Valid; infer_instance

structure DataAckMsg where
  client_id : List Nat
  last_seq_received : Nat
deriving DecidableEq, Repr

def DataAckMsg.Valid (m : DataAckMsg) : Prop :=
  m.client_id.length = 6 ∧ (∀ b ∈ m.client_id, b < 256) ∧
  m.last_seq_received < 2 ^ 32

instance (m : DataAckMsg) : Decidable m.Valid := by
  unfold DataAckMsg.Valid; infer_instance

inductive CmdPayload where
  | identify (duration_ms : Nat)
  | syncClock (server_time_us : Nat)
deriving DecidableEq, Repr

structure CmdMsg where
  client_id : List Nat
  cmd_seq : Nat
  payload : CmdPayload
deriving DecidableEq, Repr

def CmdPayload.InRange : CmdPayload → Prop
  | .identify ms => ms < 2 ^ 16
  | .syncClock us => us < 2  ^ 64

instance : DecidablePred CmdPayload.InRange := fun p => by
  cases p <;> (unfold CmdPayload.InRange; infer_instance)

def CmdMsg.Valid (m : CmdMsg) : Prop :=
  m.client_id.length = 6 ∧ (∀ b ∈ m.client_id, b < 256) ∧
  m.cmd_seq < 2 ^ 32 ∧ m.payload.InRange

instance (m : CmdMsg) : Decidable m.Valid := by
  unfold CmdMsg.Valid; infer_instance

/-! ## Pack functions

The firmware tree declares the codec in `vibesensor_proto.h`; the
matching implementation file is absent from the sources, so the byte
layout below follows the header size constants, spec section 4.1 and the
structure of the older `src/esp` implementation of `pack_hello`,
`pack_data`, `parse_cmd` and `pack_ack`.  Each `pack_*` mirrors the C
shape `if (out_len < need) return 0; ...write...; return need` as an
`Option`: `none` is the zero return with the buffer left unwritten. -/

/-- Exact encoded size of a Hello: `kHelloFixedBytes + name_len + fw_len`
with both string lengths measured by `strnlen(s, 32)`. -/
def helloNeed (m : HelloMsg) : Nat :=
  kHelloFixedBytes + min 32 m.name.length + min 32 m.firmware_version.length

/-- Byte image of a Hello message (type, version, client id, control
port, sample rate, frame samples, length-prefixed name and firmware
strings truncated to 32 bytes, overflow drop counter). -/
def encode_hello (m : HelloMsg) : List Nat :=
  kMsgHello :: kProtoVersion ::
    (m.client_id ++
      (write_u16_le m.control_port ++
        (write_u16_le m.sample_rate_hz ++
          (write_u16_le m.frame_samples ++
            (min 32 m.name.length ::
              (m.name.take 32 ++
                (min 32 m.firmware_version.length ::
                  (m.firmware_version.take 32 ++
                    write_u32_le m.overflow_drop_count))))))))

/-- C: `pack_hello` (firmware variant, with the `frame_samples` field). -/
def pack_hello (out_len : Nat) (m : HelloMsg) : Option (List Nat) :=
  if out_len < helloNeed m then none else some (encode_hello m)

/-- Exact encoded size of a Data message: header plus six payload bytes
per sample. -/
def dataNeed (m : DataMsg) : Nat :=
  kDataHeaderBytes + 6 * m.sample_count

/-- Byte image of a Data message; the payload is the first
`sample_count` interleaved (x, y, z) int16 triples of the sample
array, as the `memcpy` of `payload_len` bytes copies them. -/
def encode_data (m : DataMsg) : List Nat :=
  kMsgData :: kProtoVersion ::
    (m.client_id ++
      (write_u32_le m.seq ++
        (write_u64_le m.t0_us ++
          (write_u16_le m.sample_count ++
            encode_i16s (m.xyz.take (3 * m.sample_count))))))

/-- C: `pack_data`. -/
def pack_data (out_len : Nat) (m : DataMsg) : Option (List Nat) :=
  if out_len < dataNeed m then none else some (encode_data m)

/-- Byte image of an Ack message. -/
def encode_ack (m : AckMsg) : List Nat :=
  kMsgAck :: kProtoVersion ::
    (m.client_id ++ (write_u32_le m.cmd_seq ++ [m.status % 256]))

/-- C: `pack_ack`; the required size is the constant `kAckBytes`. -/
def pack_ack (out_len : Nat) (m : AckMsg) : Option (List Nat) :=
  if out_len < kAckBytes then none else some (encode_ack m)

/-- Byte image of a DataAck message. -/
def encode_data_ack (m : DataAckMsg) : List Nat :=
  kMsgDataAck :: kProtoVersion ::
    (m.client_id ++ write_u32_le m.last_seq_received)

/-- Modelled from the spec: `pack_data_ack` is declared in the firmware
header (required size `kDataAckBytes`) but its implementation file is
absent from the sources; layout per spec section 4.1. -/
def pack_data_ack (out_len : Nat) (m : DataAckMsg) : Option (List Nat) :=
  if out_len < kDataAckBytes then none else some (encode_data_ack m)

/-- Modelled from the spec: the collector-side Cmd encoder (the repo
holds only the node, which parses Cmd); layout per spec section 4.1:
fixed header then a command-specific trailer (Identify: `duration_ms`
u16; SyncClock: `server_time_us` u64). -/
def encode_cmd (m : CmdMsg) : List Nat :=
  kMsgCmd :: kProtoVersion ::
    (m.client_id ++
      ((match m.payload with
        | .identify _ => kCmdIdentify
        | .syncClock _ => kCmdSyncClock) ::
        (write_u32_le m.cmd_seq ++
          (match m.payload with
           | .identify ms => write_u16_le ms
           | .syncClock us => write_u64_le us))))

/-! ## Parse functions

`parse_cmd` and `parse_data_ack` are the node-side parsers; the other
direction (collector-side `parse_hello`, `parse_data`, `parse_ack`) is
absent from the sources and is modelled from the layout of spec
section 4.1.  Parsers return `none` exactly where the C functions
return `false`. -/

/-- Out-parameter record of `parse_cmd`; fields the C caller leaves
untouched keep their zero initialisation. -/
structure ParsedCmd where
  cmd_id : Nat
  cmd_seq : Nat
  identify_duration_ms : Nat
  server_time_us : Nat
deriving DecidableEq, Repr

/-- C: `parse_cmd` (firmware variant: the SyncClock branch reading the
u64 trailer is modelled from the header declaration of
`out_server_time_us`, `kCmdSyncClockBytes` and spec section 4.1; the
rest follows the `src/esp` implementation).  Rejects short buffers,
wrong type or version, and a client id differing from the expected one;
an unknown `cmd_id` still yields the parsed `(cmd_id, cmd_seq)` pair. -/
def parse_cmd (expected_client_id : List Nat) (d : List Nat) : Option ParsedCmd :=
  match d with
  | t :: v :: r0 =>
    if t = kMsgCmd ∧ v = kProtoVersion ∧ 11 ≤ r0.length ∧
        r0.take 6 = expected_client_id then
      match r0.drop 6 with
      | cmd_id :: r1 =>
        let cmd_seq := read_u32_le r1
        let trailer := r1.drop 4
        if cmd_id = kCmdIdentify then
          if 2 ≤ trailer.length then
            some ⟨cmd_id, cmd_seq, read_u16_le trailer, 0⟩
          else none
        else if cmd_id = kCmdSyncClock then
          if 8 ≤ trailer.length then
            some ⟨cmd_id, cmd_seq, 0, read_u64_le trailer⟩
          else none
        else some ⟨cmd_id, cmd_seq, 0, 0⟩
      | [] => none
    else none
  | _ => none

/-- Modelled from the spec: `parse_data_ack` is declared in the firmware
header and called from `main.cpp` but its implementation file is absent;
per spec section 4.1 it accepts a DataAck of at least `kDataAckBytes`
whose version and embedded client id match, yielding
`last_seq_received`. -/
def parse_data_ack (expected_client_id : List Nat) (d : List Nat) : Option Nat :=
  match d with
  | t :: v :: r0 =>
    if t = kMsgDataAck ∧ v = kProtoVersion ∧ 10 ≤ r0.length ∧
        r0.take 6 = expected_client_id then
      some (read_u32_le (r0.drop 6))
    else none
  | _ => none

/-- Modelled from the spec: collector-side Hello decoder per spec
section 4.1 (explicit length prefixes, little-endian fields). -/
def parse_hello (d : List Nat) : Option HelloMsg :=
  match d with
  | t :: v :: r0 =>
    if t = kMsgHello ∧ v = kProtoVersion ∧ 18 ≤ r0.length then
      let cid := r0.take 6
      let r1 := r0.drop 6
      let control_port := read_u16_le r1
      let r2 := r1.drop 2
      let sample_rate := read_u16_le r2
      let r3 := r2.drop 2
      let frame_samples := read_u16_le r3
      match r3.drop 2 with
      | name_len :: r4 =>
        if name_len + 1 + 4 ≤ r4.length then
          let name := r4.take name_len
          match r4.drop name_len with
          | fw_len :: r5 =>
            if fw_len + 4 ≤ r5.length then
              some ⟨cid, control_port, sample_rate, frame_samples,
                name, r5.take fw_len, read_u32_le (r5.drop fw_len)⟩
            else none
          | [] => none
        else none
      | [] => none
    else none
  | _ => none

/-- Modelled from the spec: collector-side Data decoder per spec
section 4.1 (`sample_count` interleaved int16 triples after the fixed
header). -/
def parse_data (d : List Nat) : Option DataMsg :=
  match d with
  | t :: v :: r0 =>
    if t = kMsgData ∧ v = kProtoVersion ∧ 20 ≤ r0.length then
      let cid := r0.take 6
      let r1 := r0.drop 6
      let seq := read_u32_le r1
      let r2 := r1.drop 4
      let t0 := read_u64_le r2
      let r3 := r2.drop 8
      let sample_count := read_u16_le r3
      let r4 := r3.drop 2
      if 6 * sample_count ≤ r4.length then
        some ⟨cid, seq, t0, sample_count, read_i16s (3 * sample_count) r4⟩
      else none
    else none
  | _ => none

/-- Modelled from the spec: collector-side Ack decoder per spec
section 4.1. -/
def parse_ack (d : List Nat) : Option AckMsg :=
  match d with
  | t :: v :: r0 =>
    if t = kMsgAck ∧ v = kProtoVersion ∧ 11 ≤ r0.length then
      some ⟨r0.take 6, read_u32_le (r0.drop 6), ((r0.drop 6).drop 4).getD 0 0⟩
    else none
  | _ => none

theorem hello_roundtrip (m : HelloMsg) (h : m.Valid) :
    parse_hello (encode_hello m) =
      some { m with name := m.name.take 32,
                    firmware_version := m.firmware_version.take 32 } := by
  obtain ⟨hcid, -, hport, hrate, hframes, -, -, hdrops⟩ := h
  have l2 : ∀ v : Nat, (write_u16_le v).length = 2 := fun v => by simp [write_u16_le]
  have l4 : ∀ v : Nat, (write_u32_le v).length = 4 := fun v => by simp [write_u32_le]
  have hn : (m.name.take 32).length = min 32 m.name.length := by simp
  have hf : (m.firmware_version.take 32).length = min 32 m.firmware_version.length := by simp
  simp only [encode_hello, parse_hello]
  rw [take_app _ _ _ hcid, drop_app _ _ _ hcid]
  rw [read_write_u16, drop_app _ _ _ (l2 _)]
  rw [read_write_u16, drop_app _ _ _ (l2 _)]
  rw [read_write_u16, drop_app _ _ _ (l2 _)]
  rw [if_pos]
  · dsimp only
    rw [take_app _ _ _ hn, drop_app _ _ _ hn]
    rw [if_pos]
    · dsimp only
      rw [take_app _ _ _ hf, drop_app _ _ _ hf]
      rw [if_pos]
      · rw [← List.append_nil (write_u32_le m.overflow_drop_count), read_write_u32]
        rw [Nat.mod_eq_of_lt hport, Nat.mod_eq_of_lt hrate,
          Nat.mod_eq_of_lt hframes, Nat.mod_eq_of_lt hdrops]
      · simp [l4]
    · simp [l4]
      omega

  · refine ⟨trivial, trivial, ?_⟩
    simp [l2, l4, hcid]
    omega

theorem write_u16_le_length (v : Nat) : (write_u16_le v).length = 2 := by
  simp [write_u16_le]

theorem write_u32_le_length (v : Nat) : (write_u32_le v).length = 4 := by
  simp [write_u32_le]

theorem write_u64_le_length (v : Nat) : (write_u64_le v).length = 8 := by
  simp [write_u64_le]

theorem data_roundtrip (m : DataMsg) (h : m.Valid) :
    parse_data (encode_data m) = some m := by
  obtain ⟨hcid, -, hseq, ht0, hcount, hlen, hbounds⟩ := h
  have htake : m.xyz.take (3 * m.sample_count) = m.xyz :=
    List.take_of_length_le (le_of_eq hlen)
  simp only [encode_data, parse_data]
  rw [take_app _ _ _ hcid, drop_app _ _ _ hcid]
  rw [read_write_u32, drop_app _ _ _ (write_u32_le_length _)]
  rw [read_write_u64, drop_app _ _ _ (write_u64_le_length _)]
  rw [read_write_u16, drop_app _ _ _ (write_u16_le_length _)]
  rw [htake]
  rw [if_pos]
  · rw [if_pos]
    · rw [Nat.mod_eq_of_lt hseq, Nat.mod_eq_of_lt ht0, Nat.mod_eq_of_lt hcount]
      rw [← List.append_nil (encode_i16s m.xyz), ← hlen,
        read_encode_i16s m.xyz [] hbounds]
    · rw [encode_i16s_length, hlen]
      rw [Nat.mod_eq_of_lt hcount]
      omega
  · refine ⟨trivial, trivial, ?_⟩
    simp [write_u32_le, write_u64_le, write_u16_le, hcid]
    omega

theorem ack_roundtrip (m : AckMsg) (h : m.Valid) :
    parse_ack (encode_ack m) = some m := by
  obtain ⟨hcid, -, hseq, hstatus⟩ := h
  simp only [encode_ack, parse_ack]
  rw [take_app _ _ _ hcid, drop_app _ _ _ hcid]
  rw [read_write_u32, drop_app _ _ _ (write_u32_le_length _)]
  rw [if_pos]
  · have h1 : m.cmd_seq % 4294967296 = m.cmd_seq := by omega
    simp [h1, Nat.mod_eq_of_lt hstatus]
  · refine ⟨trivial, trivial, ?_⟩
    simp [write_u32_le, hcid]

theorem data_ack_roundtrip (m : DataAckMsg) (h : m.Valid) :
    parse_data_ack m.client_id (encode_data_ack m) = some m.last_seq_received := by
  obtain ⟨hcid, -, hseq⟩ := h
  simp only [encode_data_ack, parse_data_ack]
  rw [take_app _ _ _ hcid, drop_app _ _ _ hcid]
  rw [← List.append_nil (write_u32_le m.last_seq_received), read_write_u32]
  rw [if_pos]
  · rw [Nat.mod_eq_of_lt hseq]
  · refine ⟨trivial, trivial, ?_, rfl⟩
    simp [write_u32_le, hcid]

/-- The out-parameter record the node obtains from a well-formed Cmd:
the trailer field of the other command kind keeps its zero default. -/
def cmdExpected (m : CmdMsg) : ParsedCmd :=
  match m.payload with
  | .identify ms => ⟨kCmdIdentify, m.cmd_seq, ms, 0⟩
  | .syncClock us => ⟨kCmdSyncClock, m.cmd_seq, 0, us⟩

theorem cmd_roundtrip (m : CmdMsg) (h : m.Valid) :
    parse_cmd m.client_id (encode_cmd m) = some (cmdExpected m) := by
  obtain ⟨hcid, -, hseq, hpayload⟩ := h
  cases hp : m.payload with
  | identify ms =>
    rw [hp] at hpayload
    unfold CmdPayload.InRange at hpayload
    simp only [encode_cmd, parse_cmd, cmdExpected, hp]
    rw [take_app _ _ _ hcid, drop_app _ _ _ hcid]
    rw [if_pos]
    · dsimp only
      rw [read_write_u32, drop_app _ _ _ (write_u32_le_length _)]
      rw [if_pos rfl]
      rw [if_pos]
      · rw [← List.append_nil (write_u16_le ms), read_write_u16]
        rw [Nat.mod_eq_of_lt hseq, Nat.mod_eq_of_lt hpayload]
      · simp [write_u16_le]
    · refine ⟨trivial, trivial, ?_, rfl⟩
      simp [write_u32_le, write_u16_le, hcid]
  | syncClock us =>
    rw [hp] at hpayload
    unfold CmdPayload.InRange at hpayload
    simp only [encode_cmd, parse_cmd, cmdExpected, hp]
    rw [take_app _ _ _ hcid, drop_app _ _ _ hcid]
    rw [if_pos]
    · dsimp only
      rw [read_write_u32, drop_app _ _ _ (write_u32_le_length _)]
      rw [if_neg (by decide), if_pos rfl]
      rw [if_pos]
      · rw [← List.append_nil (write_u64_le us), read_write_u64]
        rw [Nat.mod_eq_of_lt hseq, Nat.mod_eq_of_lt hpayload]
      · simp [write_u64_le]
    · refine ⟨trivial, trivial, ?_, rfl⟩
      simp [write_u32_le, write_u64_le, hcid]

theorem encode_hello_length (m : HelloMsg) (h : m.client_id.length = 6) :
    (encode_hello m).length = helloNeed m := by
  simp [encode_hello, helloNeed, kHelloFixedBytes, kClientIdBytes,
    write_u16_le, write_u32_le, h]
  omega

theorem encode_data_length (m : DataMsg) (h : m.client_id.length = 6)
    (hx : m.xyz.length = 3 * m.sample_count) :
    (encode_data m).length = dataNeed m := by
  have htake : m.xyz.take (3 * m.sample_count) = m.xyz :=
    List.take_of_length_le (le_of_eq hx)
  simp [encode_data, dataNeed, kDataHeaderBytes, kClientIdBytes,
    write_u32_le, write_u64_le, write_u16_le, h, htake, encode_i16s_length, hx]
  omega

theorem encode_ack_length (m : AckMsg) (h : m.client_id.length = 6) :
    (encode_ack m).length = kAckBytes := by
  simp [encode_ack, kAckBytes, kClientIdBytes, write_u32_le, h]

theorem encode_data_ack_length (m : DataAckMsg) (h : m.client_id.length = 6) :
    (encode_data_ack m).length = kDataAckBytes := by
  simp [encode_data_ack, kDataAckBytes, kClientIdBytes, write_u32_le, h]

/-- C1: for every valid message of each kind, decoding the encoded bytes
yields the message back, except that the Hello name and firmware-version
fields are truncated to 32 bytes before encoding, so the decoded Hello
carries the truncated strings. -/
theorem C1_encode_decode_roundtrip :
    (∀ m : HelloMsg, m.Valid → parse_hello (encode_hello m) =
      some { m with name := m.name.take 32,
                    firmware_version := m.firmware_version.take 32 }) ∧
    (∀ m : DataMsg, m.Valid → parse_data (encode_data m) = some m) ∧
    (∀ m : CmdMsg, m.Valid →
      parse_cmd m.client_id (encode_cmd m) = some (cmdExpected m)) ∧
    (∀ m : AckMsg, m.Valid → parse_ack (encode_ack m) = some m) ∧
    (∀ m : DataAckMsg, m.Valid →
      parse_data_ack m.client_id (encode_data_ack m) = some m.last_seq_received) :=
  ⟨hello_roundtrip, data_roundtrip, cmd_roundtrip, ack_roundtrip, data_ack_roundtrip⟩

def sampleHello : HelloMsg :=
  ⟨[208, 90, 0, 0, 0, 1], 9010, 400, 200, List.replicate 40 97, [101, 115, 112], 7⟩

def sampleData : DataMsg :=
  ⟨[208, 90, 0, 0, 0, 1], 3, 123456789, 2, [1, -2, 3, 30000, -30000, 0]⟩

def sampleCmdIdentify : CmdMsg := ⟨[208, 90, 0, 0, 0, 1], 9, .identify 4000⟩

def sampleCmdSync : CmdMsg := ⟨[208, 90, 0, 0, 0, 1], 10, .syncClock 987654321987⟩

def sampleAck : AckMsg := ⟨[208, 90, 0, 0, 0, 1], 9, 0⟩

def sampleDataAck : DataAckMsg := ⟨[208, 90, 0, 0, 0, 1], 3⟩

/-- Witness for C1 at concrete messages of each kind (the Hello name is
40 bytes long, exercising the 32-byte truncation). -/
theorem C1_encode_decode_roundtrip_witness :
    parse_hello (encode_hello sampleHello) =
      some { sampleHello with name := sampleHello.name.take 32,
                              firmware_version := sampleHello.firmware_version.take 32 } ∧
    parse_data (encode_data sampleData) = some sampleData ∧
    parse_cmd sampleCmdIdentify.client_id (encode_cmd sampleCmdIdentify) =
      some (cmdExpected sampleCmdIdentify) ∧
    parse_cmd sampleCmdSync.client_id (encode_cmd sampleCmdSync) =
      some (cmdExpected sampleCmdSync) ∧
    parse_ack (encode_ack sampleAck) = some sampleAck ∧
    parse_data_ack sampleDataAck.client_id (encode_data_ack sampleDataAck) =
      some sampleDataAck.last_seq_received :=
  ⟨C1_encode_decode_roundtrip.1 sampleHello (by decide),
   C1_encode_decode_roundtrip.2.1 sampleData (by decide),
   C1_encode_decode_roundtrip.2.2.1 sampleCmdIdentify (by decide),
   C1_encode_decode_roundtrip.2.2.1 sampleCmdSync (by decide),
   C1_encode_decode_roundtrip.2.2.2.1 sampleAck (by decide),
   C1_encode_decode_roundtrip.2.2.2.2 sampleDataAck (by decide)⟩

/-- C2: every pack function returns `none` (the C zero return, buffer
unwritten) exactly when the destination is smaller than the exact
encoded size, and otherwise returns a byte image of exactly that size. -/
theorem C2_pack_exact_size :
    (∀ (n : Nat) (m : HelloMsg), m.client_id.length = 6 →
      (pack_hello n m = none ↔ n < helloNeed m) ∧
      ∀ bs, pack_hello n m = some bs → bs.length = helloNeed m) ∧
    (∀ (n : Nat) (m : DataMsg), m.client_id.length = 6 →
      m.xyz.length = 3 * m.sample_count →
      (pack_data n m = none ↔ n < dataNeed m) ∧
      ∀ bs, pack_data n m = some bs → bs.length = dataNeed m) ∧
    (∀ (n : Nat) (m : AckMsg), m.client_id.length = 6 →
      (pack_ack n m = none ↔ n < kAckBytes) ∧
      ∀ bs, pack_ack n m = some bs → bs.length = kAckBytes) ∧
    (∀ (n : Nat) (m : DataAckMsg), m.client_id.length = 6 →
      (pack_data_ack n m = none ↔ n < kDataAckBytes) ∧
      ∀ bs, pack_data_ack n m = some bs → bs.length = kDataAckBytes) := by
  refine ⟨?_, ?_, ?_, ?_⟩
  · intro n m h
    constructor
    · unfold pack_hello
      split <;> simp_all
    · intro bs hbs
      unfold pack_hello at hbs
      split at hbs
      · cases hbs
      · cases hbs
        exact encode_hello_length m h
  · intro n m h hx
    constructor
    · unfold pack_data
      split <;> simp_all
    · intro bs hbs
      unfold pack_data at hbs
      split at hbs
      · cases hbs
      · cases hbs
        exact encode_data_length m h hx
  · intro n m h
    constructor
    · unfold pack_ack
      split <;> simp_all
    · intro bs hbs
      unfold pack_ack at hbs
      split at hbs
      · cases hbs
      · cases hbs
        exact encode_ack_length m h
  · intro n m h
    constructor
    · unfold pack_data_ack
      split <;> simp_all
    · intro bs hbs
      unfold pack_data_ack at hbs
      split at hbs
      · cases hbs
      · cases hbs
        exact encode_data_ack_length m h

/-- Witness for C2 at concrete messages and buffer sizes. -/
theorem C2_pack_exact_size_witness :
    ((pack_hello 128 sampleHello = none ↔ 128 < helloNeed sampleHello) ∧
      ∀ bs, pack_hello 128 sampleHello = some bs → bs.length = helloNeed sampleHello) ∧
    ((pack_data 1472 sampleData = none ↔ 1472 < dataNeed sampleData) ∧
      ∀ bs, pack_data 1472 sampleData = some bs → bs.length = dataNeed sampleData) ∧
    ((pack_ack 16 sampleAck = none ↔ 16 < kAckBytes) ∧
      ∀ bs, pack_ack 16 sampleAck = some bs → bs.length = kAckBytes) ∧
    ((pack_data_ack 4 sampleDataAck = none ↔ 4 < kDataAckBytes) ∧
      ∀ bs, pack_data_ack 4 sampleDataAck = some bs → bs.length = kDataAckBytes) :=
  ⟨C2_pack_exact_size.1 128 sampleHello (by decide),
   C2_pack_exact_size.2.1 1472 sampleData (by decide) (by decide),
   C2_pack_exact_size.2.2.1 16 sampleAck (by decide),
   C2_pack_exact_size.2.2.2 4 sampleDataAck (by decide)⟩

/-! ## Wrap-safe sequence comparison (main.cpp) -/

/-- Signed reinterpretation of a 32-bit value, as `static_cast<int32_t>`
of an unsigned 32-bit difference. -/
def toInt32 (d : Nat) : Int :=
  if d < 2 ^ 31 then (d : Int) else (d : Int) - 2 ^ 32

/-- C: `seq_less_or_equal` — `static_cast<int32_t>(lhs - rhs) <= 0`.
Operands are `uint32_t`, so both are reduced modulo `2 ^ 32` and the
subtraction is the unsigned 32-bit difference. -/
def seq_less_or_equal (lhs rhs : Nat) : Bool :=
  decide (toInt32 ((lhs % 2 ^ 32 + 2 ^ 32 - rhs % 2 ^ 32) % 2 ^ 32) ≤ 0)

/-- Circular distance of two 32-bit sequence numbers (the shorter way
around the `2 ^ 32` circle), the reading of the claim wording. -/
def circularDistance (a b : Nat) : Nat :=
  min ((a % 2 ^ 32 + 2 ^ 32 - b % 2 ^ 32) % 2 ^ 32)
      ((b % 2 ^ 32 + 2 ^ 32 - a % 2 ^ 32) % 2 ^ 32)

/-! ## Frame queue (main.cpp)

The ring buffer `g_queue`/`g_q_head`/`g_q_tail`/`g_q_size` is modelled
as the list of queued frames in FIFO order (oldest first); pushing at
the head slot is `++ [f]`, popping the tail slot is `List.tail`.
`capacity = 0` models the unallocated queue (`g_queue == nullptr ||
g_queue_capacity == 0`), which `setup` leaves behind only when every
heap allocation between the target and the floor failed. -/

structure DataFrame where
  seq : Nat
  t0_us : Nat
  sample_count : Nat
  xyz : List Int
  transmitted : Bool
  last_tx_ms : Nat
deriving DecidableEq, Repr

/-- The mutable globals touched by `enqueue_frame`. -/
structure QueueState where
  frames : List DataFrame
  capacity : Nat
  overflow_drops : Nat
  build_xyz : List Int
  build_count : Nat
  build_t0_us : Nat
  next_seq : Nat
  clock_offset_us : Int
deriving DecidableEq, Repr

/-- The frame `enqueue_frame` writes into the head slot: sequence from
`g_next_seq`, build timestamp shifted by the clock offset (int64 sum
cast back to uint64), and the first `3 * build_count` interleaved
sample values copied out of the build buffer. -/
def buildFrame (s : QueueState) : DataFrame :=
  { seq := s.next_seq % 2 ^ 32
    t0_us := (((s.build_t0_us : Int) + s.clock_offset_us).emod (2 ^ 64)).toNat
    sample_count := s.build_count
    xyz := s.build_xyz.take (3 * s.build_count)
    transmitted := false
    last_tx_ms := 0 }

/-- C: `enqueue_frame` — returns unchanged on an empty build buffer;
counts a drop and discards the build when the queue was never
allocated; evicts the oldest frame (counting a drop) when full; then
appends the new frame and resets the build counter. -/
def enqueue_frame (s : QueueState) : QueueState :=
  if s.build_count = 0 then s
  else if s.capacity = 0 then
    { s with overflow_drops := (s.overflow_drops + 1) % 2 ^ 32,
             build_count := 0 }
  else
    let s1 := if s.frames.length = s.capacity then
        { s with overflow_drops := (s.overflow_drops + 1) % 2 ^ 32,
                 frames := s.frames.tail }
      else s
    { s1 with frames := s1.frames ++ [buildFrame s1],
              next_seq := (s1.next_seq + 1) % 2 ^ 32,
              build_count := 0 }

/-- C: `peek_frame` — the oldest queued frame, if any. -/
def peek_frame (frames : List DataFrame) : Option DataFrame :=
  frames.head?

/-- C: `drop_front_frame` — removes the oldest queued frame (no-op on an
empty queue, as the C guard makes it). -/
def drop_front_frame (frames : List DataFrame) : List DataFrame :=
  frames.tail

/-- C: `ack_data_frames` — pops frames from the front while the front
sequence is wrap-safe at or below the acknowledged one. -/
def ack_data_frames (last_seq_received : Nat) (frames : List DataFrame) :
    List DataFrame :=
  frames.dropWhile fun f => seq_less_or_equal f.seq last_seq_received

/-- `ack_data_frames` is a no-op when the front frame (if any) is not
wrap-safe at or below the acknowledged value. -/
theorem ack_noop_of_front_false (l : Nat) (frames : List DataFrame)
    (h : ∀ f, frames.head? = some f → seq_less_or_equal f.seq l = false) :
    ack_data_frames l frames = frames := by
  cases frames with
  | nil => rfl
  | cons a q =>
    have ha := h a rfl
    unfold ack_data_frames
    simp only [List.dropWhile_cons, ha, Bool.false_eq_true, if_false]

theorem seq_le_congr_left (a a' b : Nat) (h : a % 2 ^ 32 = a' % 2 ^ 32) :
    seq_less_or_equal a b = seq_less_or_equal a' b := by
  unfold seq_less_or_equal
  rw [h]

/-- A frame failing the wrap-safe bound against `l` also fails it
against any `l'` wrap-safe at or below `l`, provided the frame is less
than `2 ^ 31` ahead of `l'`. -/
theorem seq_le_false_of_window (f l l' : Nat)
    (hf : seq_less_or_equal f l = false)
    (hl : seq_less_or_equal l' l = true)
    (hwin : (f % 2 ^ 32 + 2 ^ 32 - l' % 2 ^ 32) % 2 ^ 32 < 2 ^ 31) :
    seq_less_or_equal f l' = false := by
  by_contra hcon
  have htrue : seq_less_or_equal f l' = true := by
    cases h : seq_less_or_equal f l' with
    | false => exact absurd h hcon
    | true => rfl
  have hd : (f % 2 ^ 32 + 2 ^ 32 - l' % 2 ^ 32) % 2 ^ 32 = 0 := by
    unfold seq_less_or_equal toInt32 at htrue
    rw [decide_eq_true_eq] at htrue
    split at htrue <;> omega
  have hmod : f % 2 ^ 32 = l' % 2 ^ 32 := by
    have h1 : f % 2 ^ 32 < 2 ^ 32 := Nat.mod_lt _ (by norm_num)
    have h2 : l' % 2 ^ 32 < 2 ^ 32 := Nat.mod_lt _ (by norm_num)
    omega
  rw [seq_le_congr_left f l' l hmod] at hf
  rw [hf] at hl
  cases hl

theorem C3_aux_prefix (l : Nat) (frames : List DataFrame) :
    ∃ p q, frames = p ++ q ∧
      ack_data_frames l frames = q ∧
      (∀ f ∈ p, seq_less_or_equal f.seq l = true) ∧
      (∀ f, q.head? = some f → seq_less_or_equal f.seq l = false) := by
  induction frames with
  | nil => exact ⟨[], [], rfl, rfl, by simp, by simp [ack_data_frames, List.dropWhile]⟩
  | cons a fs ih =>
    by_cases ha : seq_less_or_equal a.seq l = true
    · obtain ⟨p, q, heq, hack, hp, hq⟩ := ih
      refine ⟨a :: p, q, by rw [List.cons_append, heq], ?_, ?_, hq⟩
      · unfold ack_data_frames at hack ⊢
        simp only [List.dropWhile_cons, ha, if_true]
        exact hack
      · intro f hf
        rcases List.mem_cons.mp hf with h | h
        · rw [h]; exact ha
        · exact hp f h
    · refine ⟨[], a :: fs, rfl, ?_, by simp, ?_⟩
      · unfold ack_data_frames
        simp [List.dropWhile_cons, Bool.of_not_eq_true ha]
      · intro f hf
        simp at hf
        subst hf
        exact Bool.of_not_eq_true ha

/-- C3 (amended): `ack_data_frames` removes exactly the maximal
front-aligned prefix of frames wrap-safe at or below `last_seq`, stops
at the first frame not covered, re-running it with the same value is a
no-op, and re-running it with a smaller value is a no-op provided the
remaining front frame is less than `2 ^ 31` ahead of that value. -/
theorem C3_trim_acknowledged (l : Nat) (frames : List DataFrame) :
    (∃ p q, frames = p ++ q ∧
      ack_data_frames l frames = q ∧
      (∀ f ∈ p, seq_less_or_equal f.seq l = true) ∧
      (∀ f, q.head? = some f → seq_less_or_equal f.seq l = false)) ∧
    ack_data_frames l (ack_data_frames l frames) = ack_data_frames l frames ∧
    (∀ l', seq_less_or_equal l' l = true →
      (∀ f, (ack_data_frames l frames).head? = some f →
        (f.seq % 2 ^ 32 + 2 ^ 32 - l' % 2 ^ 32) % 2 ^ 32 < 2 ^ 31) →
      ack_data_frames l' (ack_data_frames l frames) = ack_data_frames l frames) := by
  obtain ⟨p, q, heq, hack, hp, hq⟩ := C3_aux_prefix l frames
  refine ⟨⟨p, q, heq, hack, hp, hq⟩, ?_, ?_⟩
  · refine ack_noop_of_front_false l (ack_data_frames l frames) fun x hx => ?_
    rw [hack] at hx
    exact hq x hx
  · intro l' hl' hwin
    refine ack_noop_of_front_false l' (ack_data_frames l frames) fun x hx => ?_
    have hfalse : seq_less_or_equal x.seq l = false := by
      rw [hack] at hx
      exact hq x hx
    exact seq_le_false_of_window x.seq l l' hfalse hl' (hwin x hx)

/-- A frame one step ahead of `2 ^ 31`, used to exhibit the wraparound
behaviour of re-acknowledgement with a much older value. -/
def wrapFrame : DataFrame := ⟨2 ^ 31 + 1, 0, 0, [], false, 0⟩

/-- Counterexample to C3 as stated: after trimming with `2 ^ 31` the
frame with sequence `2 ^ 31 + 1` stays, yet re-trimming with the smaller
value 0 (smaller both as a natural number and wrap-safe) removes it, so
trimming with a smaller value does not always leave the queue
unchanged. -/
theorem C3_counterexample :
    ack_data_frames (2 ^ 31) [wrapFrame] = [wrapFrame] ∧
    seq_less_or_equal 0 (2 ^ 31) = true ∧
    (0 : Nat) < 2 ^ 31 ∧
    ack_data_frames 0 (ack_data_frames (2 ^ 31) [wrapFrame]) = [] := by
  decide

/-- Witness for C3 on a concrete queue. -/
theorem C3_trim_acknowledged_witness :
    (∃ p q, [(⟨3, 0, 0, [], false, 0⟩ : DataFrame), ⟨7, 0, 0, [], false, 0⟩] = p ++ q ∧
      ack_data_frames 5 [(⟨3, 0, 0, [], false, 0⟩ : DataFrame), ⟨7, 0, 0, [], false, 0⟩] = q ∧
      (∀ f ∈ p, seq_less_or_equal f.seq 5 = true) ∧
      (∀ f, q.head? = some f → seq_less_or_equal f.seq 5 = false)) ∧
    ack_data_frames 5 (ack_data_frames 5 [(⟨3, 0, 0, [], false, 0⟩ : DataFrame), ⟨7, 0, 0, [], false, 0⟩]) =
      ack_data_frames 5 [(⟨3, 0, 0, [], false, 0⟩ : DataFrame), ⟨7, 0, 0, [], false, 0⟩] ∧
    (∀ l', seq_less_or_equal l' 5 = true →
      (∀ f, (ack_data_frames 5 [(⟨3, 0, 0, [], false, 0⟩ : DataFrame), ⟨7, 0, 0, [], false, 0⟩]).head? = some f →
        (f.seq % 2 ^ 32 + 2 ^ 32 - l' % 2 ^ 32) % 2 ^ 32 < 2 ^ 31) →
      ack_data_frames l' (ack_data_frames 5 [(⟨3, 0, 0, [], false, 0⟩ : DataFrame), ⟨7, 0, 0, [], false, 0⟩]) =
        ack_data_frames 5 [(⟨3, 0, 0, [], false, 0⟩ : DataFrame), ⟨7, 0, 0, [], false, 0⟩]) :=
  C3_trim_acknowledged 5 [⟨3, 0, 0, [], false, 0⟩, ⟨7, 0, 0, [], false, 0⟩]

/-- C4: enqueueing into a full queue of capacity `N ≥ 1` keeps size `N`,
evicts exactly the oldest frame (the rest keep their order, the new
frame is at the back) and increments the overflow drop counter by
exactly one. -/
theorem C4_enqueue_full_evicts_oldest (s : QueueState)
    (hfull : s.frames.length = s.capacity) (hcap : 0 < s.capacity)
    (hbuild : 0 < s.build_count) (hdrops : s.overflow_drops + 1 < 2 ^ 32) :
    (enqueue_frame s).frames = s.frames.tail ++ [buildFrame s] ∧
    (enqueue_frame s).frames.length = s.capacity ∧
    (enqueue_frame s).overflow_drops = s.overflow_drops + 1 := by
  unfold enqueue_frame
  rw [if_neg (by omega), if_neg (by omega), if_pos hfull]
  refine ⟨rfl, ?_, Nat.mod_eq_of_lt hdrops⟩
  simp [List.length_tail]
  omega


/-- A concrete full queue of capacity 2 with a three-sample build in
progress. -/
def fullState : QueueState :=
  { frames := [⟨0, 0, 1, [1, 2, 3], true, 5⟩, ⟨1, 100, 1, [4, 5, 6], false, 0⟩]
    capacity := 2
    overflow_drops := 4
    build_xyz := [7, 8, 9]
    build_count := 1
    build_t0_us := 2500
    next_seq := 2
    clock_offset_us := -100 }

/-- A concrete state whose queue allocation failed. -/
def nullQueueState : QueueState :=
  { frames := []
    capacity := 0
    overflow_drops := 0
    build_xyz := [7, 8, 9]
    build_count := 1
    build_t0_us := 2500
    next_seq := 2
    clock_offset_us := 0 }

/-- Witness for C4 on a concrete full queue of capacity 2. -/
theorem C4_enqueue_full_evicts_oldest_witness :
    (enqueue_frame fullState).frames = fullState.frames.tail ++ [buildFrame fullState] ∧
    (enqueue_frame fullState).frames.length = fullState.capacity ∧
    (enqueue_frame fullState).overflow_drops = fullState.overflow_drops + 1 :=
  C4_enqueue_full_evicts_oldest fullState (by decide) (by decide) (by decide) (by decide)

/-- C10: with the queue never allocated (`capacity = 0`), a completed
build frame is itself discarded: the queue is untouched, no sequence
number is consumed, the same overflow drop counter is incremented and
the build buffer is reset so sampling continues. -/
theorem C10_enqueue_unallocated (s : QueueState) (hcap : s.capacity = 0)
    (hbuild : 0 < s.build_count) (hdrops : s.overflow_drops + 1 < 2 ^ 32) :
    (enqueue_frame s).overflow_drops = s.overflow_drops + 1 ∧
    (enqueue_frame s).frames = s.frames ∧
    (enqueue_frame s).build_count = 0 ∧
    (enqueue_frame s).next_seq = s.next_seq := by
  unfold enqueue_frame
  rw [if_neg (by omega), if_pos hcap]
  exact ⟨Nat.mod_eq_of_lt hdrops, rfl, rfl, rfl⟩

/-- Witness for C10 on a concrete unallocated-queue state. -/
theorem C10_enqueue_unallocated_witness :
    (enqueue_frame nullQueueState).overflow_drops = nullQueueState.overflow_drops + 1 ∧
    (enqueue_frame nullQueueState).frames = nullQueueState.frames ∧
    (enqueue_frame nullQueueState).build_count = 0 ∧
    (enqueue_frame nullQueueState).next_seq = nullQueueState.next_seq :=
  C10_enqueue_unallocated nullQueueState (by decide) (by decide) (by decide)

/-- Counterexample to C5 as stated: the pair `(0, 2 ^ 32 - 1)` has
circular distance 1, far below `2 ^ 31`, and satisfies `0 ≤ 2 ^ 32 - 1`
in the true ordering, yet the wrap-safe comparison deems `0` strictly
greater (it reads `2 ^ 32 - 1` as one step behind `0`). -/
theorem C5_counterexample :
    circularDistance 0 (2 ^ 32 - 1) < 2 ^ 31 ∧
    (0 : Nat) ≤ 2 ^ 32 - 1 ∧
    seq_less_or_equal 0 (2 ^ 32 - 1) = false := by
  decide

/-- C5 (amended): for 32-bit values whose absolute difference (not the
circular distance) is below `2 ^ 31`, the wrap-safe comparison agrees
with the true ordering, and the wraparound pair compares as the spec
says. -/
theorem C5_seq_le_agrees (a b : Nat) (ha : a < 2 ^ 32) (hb : b < 2 ^ 32)
    (hdist : (a ≤ b ∧ b - a < 2 ^ 31) ∨ (b ≤ a ∧ a - b < 2 ^ 31)) :
    (seq_less_or_equal a b = true ↔ a ≤ b) ∧
    seq_less_or_equal (2 ^ 32 - 1) 0 = true := by
  constructor
  · unfold seq_less_or_equal toInt32
    rw [Nat.mod_eq_of_lt ha, Nat.mod_eq_of_lt hb, decide_eq_true_eq]
    split <;> constructor <;> intro <;> omega
  · decide

/-- Witness for C5 at two concrete pairs on either side of equality. -/
theorem C5_seq_le_agrees_witness :
    ((seq_less_or_equal 5 7 = true ↔ (5 : Nat) ≤ 7) ∧
      seq_less_or_equal (2 ^ 32 - 1) 0 = true) ∧
    ((seq_less_or_equal 7 5 = true ↔ (7 : Nat) ≤ 5) ∧
      seq_less_or_equal (2 ^ 32 - 1) 0 = true) :=
  ⟨C5_seq_le_agrees 5 7 (by decide) (by decide) (by decide),
   C5_seq_le_agrees 7 5 (by decide) (by decide) (by decide)⟩

/-! ## Retry policy (reliability.h) -/

/-- C: `clamp_sample_rate`. -/
def clamp_sample_rate (configured_hz min_hz max_hz : Nat) : Nat :=
  if configured_hz < min_hz then min_hz
  else if max_hz < configured_hz then max_hz
  else configured_hz

/-- C: `saturating_inc_u8` — sticks at the `uint8_t` maximum. -/
def saturating_inc_u8 (value : Nat) : Nat :=
  if value = 255 then value else (value + 1) % 256

/-- C: `compute_retry_delay_ms` — exponential backoff with the shift
saturated at 6, capped at `max_ms`, with centred jitter of a quarter of
the delay; all arithmetic is `uint32_t`. -/
def compute_retry_delay_ms (base_ms max_ms failure_count random_value : Nat) : Nat :=
  let shift := if failure_count < 6 then failure_count else 6
  let delay0 := base_ms * 2 ^ shift % 2 ^ 32
  let delay := if max_ms < delay0 then max_ms else delay0
  let jitter_span := delay / 4
  if jitter_span = 0 then delay
  else
    let jittered := (delay - jitter_span / 2 + random_value % jitter_span) % 2 ^ 32
    if max_ms < jittered then max_ms else jittered

/-- C: `retry_due` — due when never scheduled or once the wrap-safe
32-bit clock has reached the deadline. -/
def retry_due (now_ms retry_at_ms : Nat) : Bool :=
  decide (retry_at_ms = 0) ||
    decide (0 ≤ toInt32 ((now_ms % 2 ^ 32 + 2 ^ 32 - retry_at_ms % 2 ^ 32) % 2 ^ 32))

/-- C8: the backoff delay for one failure with jitter value 1 lies in
[7000, 8999]; for six or more (u8) failures the delay always lies in
[52500, 60000] = [cap times 0.875, cap]; and the failure counter
saturates at 255 instead of wrapping. -/
theorem C8_retry_delay_bounds :
    (7000 ≤ compute_retry_delay_ms 4000 60000 1 1 ∧
      compute_retry_delay_ms 4000 60000 1 1 ≤ 8999) ∧
    (∀ failures random_value : Nat, 6 ≤ failures → failures < 256 →
      52500 ≤ compute_retry_delay_ms 4000 60000 failures random_value ∧
      compute_retry_delay_ms 4000 60000 failures random_value ≤ 60000) ∧
    saturating_inc_u8 255 = 255 := by
  refine ⟨by decide, ?_, by decide⟩
  intro failures random_value h6 h256
  unfold compute_retry_delay_ms
  have hs : (if failures < 6 then failures else 6) = 6 := if_neg (by omega)
  simp only [hs]
  norm_num
  have hr : random_value % 15000 < 15000 := Nat.mod_lt _ (by norm_num)
  split <;> omega

/-- Witness for C8 at concrete failure counts. -/
theorem C8_retry_delay_bounds_witness :
    (52500 ≤ compute_retry_delay_ms 4000 60000 6 12345 ∧
      compute_retry_delay_ms 4000 60000 6 12345 ≤ 60000) ∧
    (52500 ≤ compute_retry_delay_ms 4000 60000 255 99999 ∧
      compute_retry_delay_ms 4000 60000 255 99999 ≤ 60000) :=
  ⟨C8_retry_delay_bounds.2.1 6 12345 (by decide) (by decide),
   C8_retry_delay_bounds.2.1 255 99999 (by decide) (by decide)⟩

/-! ## Sampling scheduler (main.cpp, service_sampling)

`sample_once` is abstracted by a success oracle `ok` (whether the
sensor collaborator produced a sample on the i-th attempt) and the
monotone hardware clock by `clock` (the value of `esp_timer_get_time`
at its i-th call); the due-time bookkeeping below is the translated
loop body.  All `uint64_t`/`uint32_t` state is kept reduced modulo its
width. -/

def kSampleRateMinHz : Nat := 25
def kSampleRateMaxHz : Nat := 3200
def kConfiguredSampleRateHz : Nat := 400
def kSampleRateHz : Nat :=
  clamp_sample_rate kConfiguredSampleRateHz kSampleRateMinHz kSampleRateMaxHz
def kMaxCatchUpSamplesPerLoop : Nat := 8

/-- C: `step_us = 1000000ULL / kSampleRateHz`. -/
def stepUs : Nat := 1000000 / kSampleRateHz

/-- Signed reinterpretation of a 64-bit value, as `static_cast<int64_t>`
of an unsigned 64-bit difference. -/
def toInt64 (d : Nat) : Int :=
  if d < 2 ^ 63 then (d : Int) else (d : Int) - 2 ^ 64

/-- C: `static_cast<int64_t>(now - g_next_sample_due_us) >= 0` with
`uint64_t` operands. -/
def s64_nonneg (a b : Nat) : Bool :=
  decide (0 ≤ toInt64 ((a % 2 ^ 64 + 2 ^ 64 - b % 2 ^ 64) % 2 ^ 64))

/-- The locals and globals `service_sampling` touches: the last clock
reading, the due timestamp, the catch-up count of this tick, and the
missed-sample counter. -/
structure SampState where
  now : Nat
  due : Nat
  taken : Nat
  missed : Nat
deriving DecidableEq, Repr

/-- The catch-up while loop: runs while real time has reached the due
time and fewer than `budget` samples were taken; a failed sample counts
one miss and breaks out. -/
def sample_loop (ok : Nat → Bool) (clock : Nat → Nat) :
    Nat → Nat → SampState → SampState
  | 0, _, st => st
  | b + 1, i, st =>
    if s64_nonneg st.now st.due then
      if ok i then
        sample_loop ok clock b (i + 1)
          { now := clock (i + 1) % 2 ^ 64
            due := (st.due + stepUs) % 2 ^ 64
            taken := st.taken + 1
            missed := st.missed }
      else { st with missed := (st.missed + 1) % 2 ^ 32 }
    else st

/-- C: `service_sampling` — bounded catch-up loop, then a forward jump
of the due time by the number of whole steps skipped when the node is
still behind. -/
def service_sampling (ok : Nat → Bool) (clock : Nat → Nat)
    (due0 missed0 : Nat) : SampState :=
  let st := sample_loop ok clock kMaxCatchUpSamplesPerLoop 0
    { now := clock 0 % 2 ^ 64, due := due0 % 2 ^ 64,
      taken := 0, missed := missed0 % 2 ^ 32 }
  if s64_nonneg st.now st.due then
    let lag_us := (st.now % 2 ^ 64 + 2 ^ 64 - st.due % 2 ^ 64) % 2 ^ 64
    let skipped := lag_us / stepUs + 1
    { st with missed := (st.missed + skipped % 2 ^ 32) % 2 ^ 32,
              due := (st.due + skipped * stepUs) % 2 ^ 64 }
  else st

theorem sample_loop_taken (ok : Nat → Bool) (clock : Nat → Nat) :
    ∀ (b i : Nat) (st : SampState),
      (sample_loop ok clock b i st).taken ≤ st.taken + b := by
  intro b
  induction b with
  | zero => intro i st; simp [sample_loop]
  | succ b ih =>
    intro i st
    unfold sample_loop
    split
    · split
      · calc (sample_loop ok clock b (i + 1) _).taken
            ≤ st.taken + 1 + b := ih (i + 1) _
          _ ≤ st.taken + (b + 1) := by omega
      · dsimp only
        omega
    · omega

theorem sample_loop_bounds (ok : Nat → Bool) (clock : Nat → Nat) :
    ∀ (b i : Nat) (st : SampState), st.now < 2 ^ 64 → st.due < 2 ^ 64 →
      (sample_loop ok clock b i st).now < 2 ^ 64 ∧
      (sample_loop ok clock b i st).due < 2 ^ 64 := by
  intro b
  induction b with
  | zero => intro i st h1 h2; exact ⟨h1, h2⟩
  | succ b ih =>
    intro i st h1 h2
    unfold sample_loop
    split
    · split
      · exact ih (i + 1) _ (Nat.mod_lt _ (by norm_num)) (Nat.mod_lt _ (by norm_num))
      · exact ⟨h1, h2⟩
    · exact ⟨h1, h2⟩

theorem sample_loop_due_steps (ok : Nat → Bool) (clock : Nat → Nat) :
    ∀ (b i : Nat) (st : SampState), st.due < 2 ^ 64 →
      ∃ k, (sample_loop ok clock b i st).due = (st.due + k * stepUs) % 2 ^ 64 := by
  intro b
  induction b with
  | zero =>
    intro i st h
    refine ⟨0, ?_⟩
    simp only [sample_loop, Nat.zero_mul, Nat.add_zero]
    omega
  | succ b ih =>
    intro i st h
    unfold sample_loop
    split
    · split
      · obtain ⟨k, hk⟩ := ih (i + 1)
          { now := clock (i + 1) % 2 ^ 64
            due := (st.due + stepUs) % 2 ^ 64
            taken := st.taken + 1
            missed := st.missed } (Nat.mod_lt _ (by norm_num))
        refine ⟨k + 1, ?_⟩
        rw [hk]
        rw [Nat.mod_add_mod]
        congr 1
        ring
      · refine ⟨0, ?_⟩
        dsimp only
        omega
    · refine ⟨0, ?_⟩
      omega

/-- After the forward jump of the due time, real time no longer reaches
it: the check the loop guard makes is false on the returned state. -/
theorem skip_caught_up (st : SampState) (_hn : st.now < 2 ^ 64) (hd : st.due < 2 ^ 64) :
    s64_nonneg
      (if s64_nonneg st.now st.due then
        { st with
          missed := (st.missed +
            ((st.now % 2 ^ 64 + 2 ^ 64 - st.due % 2 ^ 64) % 2 ^ 64 / stepUs + 1) % 2 ^ 32) % 2 ^ 32,
          due := (st.due +
            ((st.now % 2 ^ 64 + 2 ^ 64 - st.due % 2 ^ 64) % 2 ^ 64 / stepUs + 1) * stepUs) % 2 ^ 64 }
      else st).now
      (if s64_nonneg st.now st.due then
        { st with
          missed := (st.missed +
            ((st.now % 2 ^ 64 + 2 ^ 64 - st.due % 2 ^ 64) % 2 ^ 64 / stepUs + 1) % 2 ^ 32) % 2 ^ 32,
          due := (st.due +
            ((st.now % 2 ^ 64 + 2 ^ 64 - st.due % 2 ^ 64) % 2 ^ 64 / stepUs + 1) * stepUs) % 2 ^ 64 }
      else st).due = false := by
  have hstep : stepUs = 2500 := rfl
  split
  next h =>
    dsimp only
    rw [hstep]
    unfold s64_nonneg toInt64 at h ⊢
    rw [decide_eq_true_eq] at h
    rw [decide_eq_false_iff_not]
    split at h <;> split <;> omega
  next h =>
    exact Bool.of_not_eq_true h

/-- The forward jump moves the due time by a whole number of steps. -/
theorem skip_due_steps (d0 : Nat) (st : SampState) (k : Nat)
    (hk : st.due = (d0 + k * stepUs) % 2 ^ 64) :
    ∃ K,
      (if s64_nonneg st.now st.due then
        { st with
          missed := (st.missed +
            ((st.now % 2 ^ 64 + 2 ^ 64 - st.due % 2 ^ 64) % 2 ^ 64 / stepUs + 1) % 2 ^ 32) % 2 ^ 32,
          due := (st.due +
            ((st.now % 2 ^ 64 + 2 ^ 64 - st.due % 2 ^ 64) % 2 ^ 64 / stepUs + 1) * stepUs) % 2 ^ 64 }
      else st).due = (d0 + K * stepUs) % 2 ^ 64 := by
  split
  · refine ⟨k + ((st.now % 2 ^ 64 + 2 ^ 64 - st.due % 2 ^ 64) % 2 ^ 64 / stepUs + 1), ?_⟩
    dsimp only
    rw [hk, Nat.mod_add_mod]
    congr 1
    ring
  · exact ⟨k, hk⟩

/-- C6: one `service_sampling` call takes at most
`kMaxCatchUpSamplesPerLoop = 8` catch-up samples, leaves the due time a
whole number of steps after the initial one, and on return real time no
longer reaches the due time (the loop guard is false), so no backlog
carries over. -/
theorem C6_bounded_catch_up_and_skip (ok : Nat → Bool) (clock : Nat → Nat)
    (due0 missed0 : Nat) :
    (service_sampling ok clock due0 missed0).taken ≤ kMaxCatchUpSamplesPerLoop ∧
    s64_nonneg (service_sampling ok clock due0 missed0).now
      (service_sampling ok clock due0 missed0).due = false ∧
    ∃ k, (service_sampling ok clock due0 missed0).due = (due0 + k * stepUs) % 2 ^ 64 := by
  refine ⟨?_, ?_, ?_⟩
  · unfold service_sampling
    have h := sample_loop_taken ok clock kMaxCatchUpSamplesPerLoop 0
      { now := clock 0 % 2 ^ 64, due := due0 % 2 ^ 64,
        taken := 0, missed := missed0 % 2 ^ 32 }
    dsimp only at h
    dsimp only
    split
    · dsimp only
      omega
    · omega
  · unfold service_sampling
    obtain ⟨hn, hd⟩ := sample_loop_bounds ok clock kMaxCatchUpSamplesPerLoop 0
      { now := clock 0 % 2 ^ 64, due := due0 % 2 ^ 64,
        taken := 0, missed := missed0 % 2 ^ 32 }
      (Nat.mod_lt _ (by norm_num)) (Nat.mod_lt _ (by norm_num))
    exact skip_caught_up _ hn hd
  · unfold service_sampling
    obtain ⟨k, hk⟩ := sample_loop_due_steps ok clock kMaxCatchUpSamplesPerLoop 0
      { now := clock 0 % 2 ^ 64, due := due0 % 2 ^ 64,
        taken := 0, missed := missed0 % 2 ^ 32 }
      (Nat.mod_lt _ (by norm_num))
    dsimp only at hk
    rw [Nat.mod_add_mod] at hk
    exact skip_due_steps due0 _ k hk

/-! ## Transport drain (main.cpp, service_tx)

The UDP socket results are abstracted by oracles: `begin_ok i` and
`end_ok i` are the outcomes of `beginPacket`/`endPacket` on the i-th
loop iteration, `clock i` is `millis()` there, and `wifi_connected` the
link check at entry.  Encoding goes through the modelled `pack_data`
into the `kMaxDatagramBytes` stack buffer exactly as `service_tx`
does. -/

def kMaxDatagramBytes : Nat := 1472
def kMaxTxFramesPerLoop : Nat := 2
def kDataRetransmitIntervalMs : Nat := 120

def kFrameSamplesMaxByDatagram : Nat := (kMaxDatagramBytes - kDataHeaderBytes) / 6
def kConfiguredFrameSamples : Nat := 200
def kFrameSamples : Nat :=
  if kConfiguredFrameSamples = 0 then 1
  else if kFrameSamplesMaxByDatagram < kConfiguredFrameSamples then kFrameSamplesMaxByDatagram
  else kConfiguredFrameSamples

/-- The Data message `service_tx` encodes for a queued frame. -/
def frameMsg (client_id : List Nat) (f : DataFrame) : DataMsg :=
  ⟨client_id, f.seq, f.t0_us, f.sample_count, f.xyz⟩

/-- The counters and queue `service_tx` touches. -/
structure TxState where
  frames : List DataFrame
  tx_pack_failures : Nat
  tx_begin_failures : Nat
  tx_end_failures : Nat
  last_error_code : Nat
deriving DecidableEq, Repr

/-- One-pass drain loop of `service_tx` (`for sent in 0..kMaxTxFramesPerLoop`):
stop on an empty queue or a recently retransmitted front frame; on
encode failure drop the front frame and continue; on a send failure
stop, keeping the frame; on success mark the front frame transmitted at
the current time and continue.  The retransmit-age check is `uint32_t`
subtraction. -/
def service_tx_loop (client_id : List Nat) (clock : Nat → Nat)
    (begin_ok end_ok : Nat → Bool) :
    Nat → Nat → TxState → TxState
  | 0, _, s => s
  | b + 1, i, s =>
    match s.frames with
    | [] => s
    | f :: rest =>
      let now_ms := clock i % 2 ^ 32
      if f.transmitted ∧
          (now_ms % 2 ^ 32 + 2 ^ 32 - f.last_tx_ms % 2 ^ 32) % 2 ^ 32 <
            kDataRetransmitIntervalMs then
        s
      else
        match pack_data kMaxDatagramBytes (frameMsg client_id f) with
        | none =>
          service_tx_loop client_id clock begin_ok end_ok b (i + 1)
            { s with frames := rest,
                     tx_pack_failures := (s.tx_pack_failures + 1) % 2 ^ 32,
                     last_error_code := 5 }
        | some _ =>
          if begin_ok i then
            if end_ok i then
              service_tx_loop client_id clock begin_ok end_ok b (i + 1)
                { s with frames :=
                    { f with transmitted := true, last_tx_ms := now_ms } :: rest }
            else
              { s with tx_end_failures := (s.tx_end_failures + 1) % 2 ^ 32,
                       last_error_code := 7 }
          else
            { s with tx_begin_failures := (s.tx_begin_failures + 1) % 2 ^ 32,
                     last_error_code := 6 }

/-- C: `service_tx` — nothing happens while the link is down; otherwise
up to `kMaxTxFramesPerLoop` frames are drained. -/
def service_tx (client_id : List Nat) (wifi_connected : Bool)
    (clock : Nat → Nat) (begin_ok end_ok : Nat → Bool) (s : TxState) : TxState :=
  if wifi_connected then
    service_tx_loop client_id clock begin_ok end_ok kMaxTxFramesPerLoop 0 s
  else s

/-- C7: in one drain pass, a frame is removed only on encode failure
(and the drain continues); a send failure at either UDP step stops the
pass with the queue unchanged; a successful send only marks the front
frame transmitted at the current time, removing nothing. -/
theorem C7_tx_drain_policy (client_id : List Nat) (clock : Nat → Nat)
    (begin_ok end_ok : Nat → Bool) (b i : Nat) (s : TxState)
    (f : DataFrame) (rest : List DataFrame) (hf : s.frames = f :: rest)
    (hwait : ¬ (f.transmitted ∧
      (clock i % 2 ^ 32 % 2 ^ 32 + 2 ^ 32 - f.last_tx_ms % 2 ^ 32) % 2 ^ 32 <
        kDataRetransmitIntervalMs)) :
    (pack_data kMaxDatagramBytes (frameMsg client_id f) = none →
      service_tx_loop client_id clock begin_ok end_ok (b + 1) i s =
        service_tx_loop client_id clock begin_ok end_ok b (i + 1)
          { s with frames := rest,
                   tx_pack_failures := (s.tx_pack_failures + 1) % 2 ^ 32,
                   last_error_code := 5 }) ∧
    (∀ bs, pack_data kMaxDatagramBytes (frameMsg client_id f) = some bs →
      begin_ok i = false →
      service_tx_loop client_id clock begin_ok end_ok (b + 1) i s =
        { s with tx_begin_failures := (s.tx_begin_failures + 1) % 2 ^ 32,
                 last_error_code := 6 } ∧
      (service_tx_loop client_id clock begin_ok end_ok (b + 1) i s).frames = s.frames) ∧
    (∀ bs, pack_data kMaxDatagramBytes (frameMsg client_id f) = some bs →
      begin_ok i = true → end_ok i = false →
      service_tx_loop client_id clock begin_ok end_ok (b + 1) i s =
        { s with tx_end_failures := (s.tx_end_failures + 1) % 2 ^ 32,
                 last_error_code := 7 } ∧
      (service_tx_loop client_id clock begin_ok end_ok (b + 1) i s).frames = s.frames) ∧
    (∀ bs, pack_data kMaxDatagramBytes (frameMsg client_id f) = some bs →
      begin_ok i = true → end_ok i = true →
      service_tx_loop client_id clock begin_ok end_ok (b + 1) i s =
        service_tx_loop client_id clock begin_ok end_ok b (i + 1)
          { s with frames :=
              { f with transmitted := true,
                       last_tx_ms := clock i % 2 ^ 32 } :: rest }) := by
  refine ⟨?_, ?_, ?_, ?_⟩
  · intro hpack
    simp only [service_tx_loop, hf]
    rw [if_neg hwait, hpack]
  · intro bs hpack hbegin
    simp only [service_tx_loop, hf]
    rw [if_neg hwait, hpack]
    dsimp only
    rw [hbegin]
    simp
  · intro bs hpack hbegin hend
    simp only [service_tx_loop, hf]
    rw [if_neg hwait, hpack]
    dsimp only
    rw [hbegin, hend]
    simp
  · intro bs hpack hbegin hend
    simp only [service_tx_loop, hf]
    rw [if_neg hwait, hpack]
    dsimp only
    rw [hbegin, hend]
    simp

/-- A concrete untransmitted frame with one sample triple. -/
def txSampleFrame : DataFrame := ⟨0, 0, 1, [1, 2, 3], false, 0⟩

/-- A concrete transport state holding exactly `txSampleFrame`. -/
def txSampleState : TxState := ⟨[txSampleFrame], 0, 0, 0, 0⟩

/-- Witness for C7: the successful-send branch at a concrete state
marks the front frame without removing it. -/
theorem C7_tx_drain_policy_witness :
    service_tx_loop [9] (fun _ => 1000) (fun _ => true) (fun _ => true) 2 0 txSampleState =
      service_tx_loop [9] (fun _ => 1000) (fun _ => true) (fun _ => true) 1 1
        { txSampleState with frames :=
            [{ txSampleFrame with transmitted := true, last_tx_ms := 1000 % 2 ^ 32 }] } :=
  (C7_tx_drain_policy [9] (fun _ => 1000) (fun _ => true) (fun _ => true) 1 0
      txSampleState txSampleFrame [] rfl (by decide)).2.2.2
    (encode_data (frameMsg [9] txSampleFrame)) (by decide) rfl rfl

/-- Frames whose sample count respects `kFrameSamples` always encode
into the `kMaxDatagramBytes` buffer, so the drain loop never counts a
pack failure and never changes the sequence of queued frames. -/
theorem tx_loop_no_drop (client_id : List Nat) (clock : Nat → Nat)
    (begin_ok end_ok : Nat → Bool) :
    ∀ (b i : Nat) (s : TxState),
      (∀ f ∈ s.frames, f.sample_count ≤ kFrameSamples) →
      (service_tx_loop client_id clock begin_ok end_ok b i s).tx_pack_failures =
        s.tx_pack_failures ∧
      (service_tx_loop client_id clock begin_ok end_ok b i s).frames.map DataFrame.seq =
        s.frames.map DataFrame.seq := by
  intro b
  induction b with
  | zero => intro i s h; exact ⟨rfl, rfl⟩
  | succ b ih =>
    intro i s h
    cases hf : s.frames with
    | nil =>
      simp [service_tx_loop, hf]
    | cons f rest =>
      have hfc : f.sample_count ≤ kFrameSamples := by
        refine h f ?_
        rw [hf]
        exact List.mem_cons_self f rest
      have h200 : f.sample_count ≤ 200 := by
        rw [show kFrameSamples = 200 from rfl] at hfc
        exact hfc
      have hpack : pack_data kMaxDatagramBytes (frameMsg client_id f) =
          some (encode_data (frameMsg client_id f)) := by
        unfold pack_data
        rw [if_neg]
        unfold dataNeed frameMsg kMaxDatagramBytes kDataHeaderBytes kClientIdBytes
        dsimp only
        omega
      simp only [service_tx_loop, hf]
      split
      · exact ⟨rfl, by simp [hf]⟩
      · rw [hpack]
        dsimp only
        split
        · split
          · obtain ⟨ih1, ih2⟩ := ih (i + 1)
              { s with frames :=
                  { f with transmitted := true, last_tx_ms := clock i % 2 ^ 32 } :: rest }
              (by
                intro g hg
                rcases List.mem_cons.mp hg with hg | hg
                · rw [hg]; exact hfc
                · refine h g ?_
                  rw [hf]
                  exact List.mem_cons_of_mem f hg)
            refine ⟨ih1, ?_⟩
            rw [ih2]
            simp
          · exact ⟨rfl, by simp [hf]⟩
        · exact ⟨rfl, by simp [hf]⟩

/-- C9: the compile-time bound
`kFrameSamples ≤ (kMaxDatagramBytes − kDataHeaderBytes) / 6` holds, and
under it a queue of frames respecting `sample_count ≤ kFrameSamples`
passes through `service_tx` with no pack failure counted and no frame
dropped — the encode-failure branch is unreachable. -/
theorem C9_encode_failure_unreachable (client_id : List Nat) (wifi_connected : Bool)
    (clock : Nat → Nat) (begin_ok end_ok : Nat → Bool) (s : TxState)
    (hcount : ∀ f ∈ s.frames, f.sample_count ≤ kFrameSamples) :
    kFrameSamples ≤ (kMaxDatagramBytes - kDataHeaderBytes) / 6 ∧
    (service_tx client_id wifi_connected clock begin_ok end_ok s).tx_pack_failures =
      s.tx_pack_failures ∧
    (service_tx client_id wifi_connected clock begin_ok end_ok s).frames.map DataFrame.seq =
      s.frames.map DataFrame.seq := by
  refine ⟨by decide, ?_⟩
  unfold service_tx
  split
  · exact tx_loop_no_drop client_id clock begin_ok end_ok kMaxTxFramesPerLoop 0 s hcount
  · exact ⟨rfl, rfl⟩

/-- Witness for C9 at a concrete queue. -/
theorem C9_encode_failure_unreachable_witness :
    kFrameSamples ≤ (kMaxDatagramBytes - kDataHeaderBytes) / 6 ∧
    (service_tx [9] true (fun _ => 1000) (fun _ => true) (fun _ => false) txSampleState).tx_pack_failures =
      txSampleState.tx_pack_failures ∧
    (service_tx [9] true (fun _ => 1000) (fun _ => true) (fun _ => false) txSampleState).frames.map DataFrame.seq =
      txSampleState.frames.map DataFrame.seq :=
  C9_encode_failure_unreachable [9] true (fun _ => 1000) (fun _ => true) (fun _ => false)
    txSampleState (by decide)
